import Mathlib

/-!
Verification of the round-lifecycle / scoring / elimination core of the
typing-contest repository.  JavaScript numbers are modelled as rationals
(`ℚ`), JS strings as `List Char`, Firestore documents as Lean structures,
and each stateful operation as a pure function from an explicit
`GameState` to a response paired with the next state.
-/

namespace Typing

/-! ### Scoring engine (src/public/js/scoring.js)

Both variants of `calculateScore` that the file contains are embedded:
`calculateScore` (first variant, `finalScore = netWpm`) and
`calculateScoreV2` (second variant, tiered `accuracyPoints`/`speedPoints`).
`JSON`-level concerns that cannot arise in the typed model (a non-string
argument, `NaN`/`Infinity` inputs, which `isFinite` guards against) are
noted where they are dropped. -/

/-- JS `Math.round`: rounds half toward positive infinity. -/
def jsRound (q : ℚ) : ℤ := ⌊q + 1/2⌋

/-- JS `Math.round(x * 100) / 100`: round to two decimal places. -/
def round2 (q : ℚ) : ℚ := ((jsRound (q * 100) : ℚ)) / 100

/-- Whitespace test used to model `String.prototype.trim`. -/
def isSpace (c : Char) : Bool := c = ' ' || c = '\t' || c = '\n' || c = '\r'

/-- JS `String.prototype.trim`: strip leading and trailing whitespace. -/
def trim (s : List Char) : List Char :=
  ((s.dropWhile isSpace).reverse.dropWhile isSpace).reverse

/-- Count of positions where the typed text matches the original
(the `for` loop over `i < minLength` in `calculateScore`). -/
def correctCount (original typed : List Char) : ℕ :=
  (original.zip typed).countP fun p => p.1 == p.2

/-- The incorrect-character count computed by `calculateScore`:
mismatches inside the compared prefix plus excess typed characters
plus missing characters. -/
def incorrectTotal (original typed : List Char) : ℕ :=
  let minLength := min original.length typed.length
  let base := minLength - correctCount original typed
  let withExtra :=
    if typed.length > original.length then base + (typed.length - original.length) else base
  if original.length > typed.length then withExtra + (original.length - typed.length)
  else withExtra

/-- Output record of the first `calculateScore` variant. -/
structure Metrics where
  correctChars : ℕ
  incorrectChars : ℕ
  totalCharsTyped : ℕ
  totalCharsExpected : ℕ
  accuracy : ℚ
  rawWpm : ℚ
  netWpm : ℚ
  wpm : ℚ
  finalScore : ℚ
deriving Repr, DecidableEq

def zeroMetrics : Metrics :=
  { correctChars := 0, incorrectChars := 0, totalCharsTyped := 0, totalCharsExpected := 0
    accuracy := 0, rawWpm := 0, netWpm := 0, wpm := 0, finalScore := 0 }

/-- First variant of `calculateScore` (scoring.js, first copy):
character-positional comparison, `finalScore = netWpm`.
The `typeof` guards are enforced by the types; `!isFinite` has no
counterpart in `ℚ`; the JS falsy test `!timeInSeconds` is the `= 0` test. -/
def calculateScore (originalText typedText : List Char) (timeInSeconds : ℚ) : Metrics :=
  if originalText = [] then zeroMetrics else
  let timeIn := if timeInSeconds = 0 ∨ timeInSeconds ≤ 0 then 1 else timeInSeconds
  let original := trim originalText
  let typed := typedText
  if original = [] then zeroMetrics else
  let correctChars := correctCount original typed
  let incorrectChars := incorrectTotal original typed
  let totalCharsTyped := typed.length
  let totalCharsExpected := original.length
  let accuracy : ℚ :=
    if (0 : ℕ) < totalCharsExpected then ((correctChars : ℚ) / (totalCharsExpected : ℚ)) * 100
    else 0
  let timeInMinutes := timeIn / 60
  let rawWpm : ℚ :=
    if 0 < timeInMinutes then ((totalCharsTyped : ℚ) / 5) / timeInMinutes else 0
  let netWpm : ℚ :=
    if 0 < timeInMinutes then
      (max 0 (((correctChars : ℚ) - (incorrectChars : ℚ)) / 5)) / timeInMinutes
    else 0
  let finalScore := netWpm
  { correctChars := correctChars
    incorrectChars := incorrectChars
    totalCharsTyped := totalCharsTyped
    totalCharsExpected := totalCharsExpected
    accuracy := max 0 (min 100 (round2 accuracy))
    rawWpm := max 0 (round2 rawWpm)
    netWpm := max 0 (round2 netWpm)
    wpm := max 0 (round2 netWpm)
    finalScore := max 0 (round2 finalScore) }

/-- Output record of the second `calculateScore` variant. -/
structure MetricsV2 where
  correctChars : ℕ
  incorrectChars : ℕ
  totalCharsTyped : ℕ
  totalCharsExpected : ℕ
  accuracy : ℚ
  rawWpm : ℚ
  netWpm : ℚ
  wpm : ℚ
  accuracyPoints : ℚ
  speedPoints : ℚ
  finalScore : ℚ
deriving Repr, DecidableEq

def zeroMetricsV2 : MetricsV2 :=
  { correctChars := 0, incorrectChars := 0, totalCharsTyped := 0, totalCharsExpected := 0
    accuracy := 0, rawWpm := 0, netWpm := 0, wpm := 0
    accuracyPoints := 0, speedPoints := 0, finalScore := 0 }

/-- Second variant of `calculateScore` (scoring.js, second copy): same
character comparison, but `finalScore` is the tiered
`accuracyPoints + speedPoints` (computed from the unrounded values). -/
def calculateScoreV2 (originalText typedText : List Char) (timeInSeconds : ℚ) : MetricsV2 :=
  if originalText = [] then zeroMetricsV2 else
  let timeIn := if timeInSeconds = 0 ∨ timeInSeconds ≤ 0 then 1 else timeInSeconds
  let original := trim originalText
  let typed := typedText
  if original = [] then zeroMetricsV2 else
  let correctChars := correctCount original typed
  let incorrectChars := incorrectTotal original typed
  let totalCharsTyped := typed.length
  let totalCharsExpected := original.length
  let accuracy : ℚ :=
    if (0 : ℕ) < totalCharsExpected then ((correctChars : ℚ) / (totalCharsExpected : ℚ)) * 100
    else 0
  let timeInMinutes := timeIn / 60
  let rawWpm : ℚ :=
    if 0 < timeInMinutes then ((totalCharsTyped : ℚ) / 5) / timeInMinutes else 0
  let netWpm : ℚ :=
    if 0 < timeInMinutes then
      (max 0 (((correctChars : ℚ) - (incorrectChars : ℚ)) / 5)) / timeInMinutes
    else 0
  let accuracyPoints : ℤ :=
    if accuracy ≥ 100 then 60
    else if accuracy ≥ 95 then 55
    else if accuracy ≥ 90 then 50
    else if accuracy ≥ 80 then 40
    else if accuracy ≥ 70 then 30
    else jsRound ((accuracy / 70) * 20)
  let speedPoints : ℤ :=
    if netWpm ≥ 60 then 40
    else if netWpm ≥ 50 then 35
    else if netWpm ≥ 40 then 30
    else if netWpm ≥ 30 then 25
    else if netWpm ≥ 20 then 15
    else jsRound ((netWpm / 20) * 10)
  let finalScore : ℚ := (accuracyPoints : ℚ) + (speedPoints : ℚ)
  { correctChars := correctChars
    incorrectChars := incorrectChars
    totalCharsTyped := totalCharsTyped
    totalCharsExpected := totalCharsExpected
    accuracy := max 0 (min 100 (round2 accuracy))
    rawWpm := max 0 (round2 rawWpm)
    netWpm := max 0 (round2 netWpm)
    wpm := max 0 (round2 netWpm)
    accuracyPoints := max 0 (accuracyPoints : ℚ)
    speedPoints := max 0 (speedPoints : ℚ)
    finalScore := max 0 finalScore }

/-- A rational is representable with two decimal places. -/
def twoDecimal (q : ℚ) : Prop := ∃ n : ℤ, q = (n : ℚ) / 100

lemma twoDecimal_round2 (q : ℚ) : twoDecimal (round2 q) := ⟨jsRound (q * 100), rfl⟩

lemma twoDecimal_zero : twoDecimal 0 := ⟨0, by norm_num⟩

lemma twoDecimal_int (k : ℤ) : twoDecimal (k : ℚ) := ⟨100 * k, by push_cast; ring⟩

lemma twoDecimal_max {a b : ℚ} (ha : twoDecimal a) (hb : twoDecimal b) :
    twoDecimal (max a b) := by
  rcases max_choice a b with h | h <;> rw [h] <;> assumption

lemma twoDecimal_min {a b : ℚ} (ha : twoDecimal a) (hb : twoDecimal b) :
    twoDecimal (min a b) := by
  rcases min_choice a b with h | h <;> rw [h] <;> assumption

lemma round2_mono {a b : ℚ} (h : a ≤ b) : round2 a ≤ round2 b := by
  unfold round2 jsRound
  have : (⌊a * 100 + 1/2⌋ : ℤ) ≤ ⌊b * 100 + 1/2⌋ := by
    apply Int.floor_le_floor
    linarith
  exact div_le_div_of_nonneg_right (by exact_mod_cast this) (by norm_num)

lemma round2_nonneg {q : ℚ} (h : 0 ≤ q) : 0 ≤ round2 q := by
  unfold round2 jsRound
  have : (0 : ℤ) ≤ ⌊q * 100 + 1/2⌋ := by
    apply Int.le_floor.mpr
    push_cast
    nlinarith
  positivity

lemma round2_zero : round2 0 = 0 := by unfold round2 jsRound; norm_num

lemma max0_round2_bounds (x : ℚ) :
    0 ≤ max 0 (round2 x) ∧ twoDecimal (max 0 (round2 x)) :=
  ⟨le_max_left _ _, twoDecimal_max twoDecimal_zero (twoDecimal_round2 _)⟩

lemma twoDecimal_hundred : twoDecimal (100 : ℚ) := ⟨10000, by norm_num⟩

lemma max0_min100_bounds (x : ℚ) :
    0 ≤ max 0 (min 100 (round2 x)) ∧ max 0 (min 100 (round2 x)) ≤ 100 ∧
      twoDecimal (max 0 (min 100 (round2 x))) :=
  ⟨le_max_left _ _, max_le (by norm_num) (min_le_left _ _),
    twoDecimal_max twoDecimal_zero (twoDecimal_min twoDecimal_hundred (twoDecimal_round2 _))⟩

lemma twoDecimal_int_add (a b : ℤ) : twoDecimal ((a : ℚ) + (b : ℚ)) :=
  ⟨100 * (a + b), by push_cast; ring⟩

lemma timeIn_pos (t : ℚ) : 0 < (if t = 0 ∨ t ≤ 0 then 1 else t) := by
  split
  · norm_num
  · next h =>
    push_neg at h
    exact h.2

lemma max0_div5 (y : ℚ) : max 0 y / 5 = max 0 (y / 5) := by
  rcases le_total y 0 with h | h
  · have h5 : y / 5 ≤ 0 := by linarith
    rw [max_eq_left h, max_eq_left h5]
    norm_num
  · have h5 : 0 ≤ y / 5 := div_nonneg h (by norm_num)
    rw [max_eq_right h, max_eq_right h5]

lemma correctCount_le_typed (original typed : List Char) :
    correctCount original typed ≤ typed.length := by
  unfold correctCount
  calc (original.zip typed).countP (fun p => p.1 == p.2)
      ≤ (original.zip typed).length := List.countP_le_length _
    _ = min original.length typed.length := List.length_zip _ _
    _ ≤ typed.length := min_le_right _ _

/-- Claim C8: for every reference text, submitted text and elapsed time the
accuracy returned by `calculateScore` lies in `[0, 100]`, and the
`accuracy`, `rawWpm`, `netWpm`, `wpm` and `finalScore` fields are
non-negative and representable with two decimal places; this holds for both
variants of the scoring function. -/
theorem calculateScore_bounds (o t : List Char) (q : ℚ) :
    (0 ≤ (calculateScore o t q).accuracy ∧ (calculateScore o t q).accuracy ≤ 100 ∧
      twoDecimal (calculateScore o t q).accuracy ∧
      0 ≤ (calculateScore o t q).rawWpm ∧ twoDecimal (calculateScore o t q).rawWpm ∧
      0 ≤ (calculateScore o t q).netWpm ∧ twoDecimal (calculateScore o t q).netWpm ∧
      0 ≤ (calculateScore o t q).wpm ∧ twoDecimal (calculateScore o t q).wpm ∧
      0 ≤ (calculateScore o t q).finalScore ∧ twoDecimal (calculateScore o t q).finalScore) ∧
    (0 ≤ (calculateScoreV2 o t q).accuracy ∧ (calculateScoreV2 o t q).accuracy ≤ 100 ∧
      twoDecimal (calculateScoreV2 o t q).accuracy ∧
      0 ≤ (calculateScoreV2 o t q).rawWpm ∧ twoDecimal (calculateScoreV2 o t q).rawWpm ∧
      0 ≤ (calculateScoreV2 o t q).netWpm ∧ twoDecimal (calculateScoreV2 o t q).netWpm ∧
      0 ≤ (calculateScoreV2 o t q).wpm ∧ twoDecimal (calculateScoreV2 o t q).wpm ∧
      0 ≤ (calculateScoreV2 o t q).finalScore ∧
        twoDecimal (calculateScoreV2 o t q).finalScore) := by
  by_cases h1 : o = []
  · constructor
    · simp only [calculateScore, h1, if_true, zeroMetrics]
      refine ⟨le_refl 0, by norm_num, twoDecimal_zero, le_refl 0, twoDecimal_zero, le_refl 0,
        twoDecimal_zero, le_refl 0, twoDecimal_zero, le_refl 0, twoDecimal_zero⟩
    · simp only [calculateScoreV2, h1, if_true, zeroMetricsV2]
      refine ⟨le_refl 0, by norm_num, twoDecimal_zero, le_refl 0, twoDecimal_zero, le_refl 0,
        twoDecimal_zero, le_refl 0, twoDecimal_zero, le_refl 0, twoDecimal_zero⟩
  · by_cases h2 : trim o = []
    · constructor
      · simp only [calculateScore, h1, h2, if_false, if_true, zeroMetrics]
        refine ⟨le_refl 0, by norm_num, twoDecimal_zero, le_refl 0, twoDecimal_zero, le_refl 0,
          twoDecimal_zero, le_refl 0, twoDecimal_zero, le_refl 0, twoDecimal_zero⟩
      · simp only [calculateScoreV2, h1, h2, if_false, if_true, zeroMetricsV2]
        refine ⟨le_refl 0, by norm_num, twoDecimal_zero, le_refl 0, twoDecimal_zero, le_refl 0,
          twoDecimal_zero, le_refl 0, twoDecimal_zero, le_refl 0, twoDecimal_zero⟩
    · constructor
      · simp only [calculateScore, h1, h2, if_false]
        exact ⟨(max0_min100_bounds _).1, (max0_min100_bounds _).2.1, (max0_min100_bounds _).2.2,
          (max0_round2_bounds _).1, (max0_round2_bounds _).2,
          (max0_round2_bounds _).1, (max0_round2_bounds _).2,
          (max0_round2_bounds _).1, (max0_round2_bounds _).2,
          (max0_round2_bounds _).1, (max0_round2_bounds _).2⟩
      · simp only [calculateScoreV2, h1, h2, if_false]
        exact ⟨(max0_min100_bounds _).1, (max0_min100_bounds _).2.1, (max0_min100_bounds _).2.2,
          (max0_round2_bounds _).1, (max0_round2_bounds _).2,
          (max0_round2_bounds _).1, (max0_round2_bounds _).2,
          (max0_round2_bounds _).1, (max0_round2_bounds _).2,
          le_max_left _ _, twoDecimal_max twoDecimal_zero (twoDecimal_int_add _ _)⟩

/-- The speed formula asserted by the specification: countable correct
units (correct minus incorrect characters, floored at zero) divided by 5,
divided by the elapsed minutes, rounded to two decimal places — stated
over the same defensive time defaulting the code applies. -/
def specSpeedFormula (originalText typedText : List Char) (timeInSeconds : ℚ) : ℚ :=
  let timeIn := if timeInSeconds = 0 ∨ timeInSeconds ≤ 0 then 1 else timeInSeconds
  let units : ℚ :=
    max 0 ((correctCount (trim originalText) typedText : ℚ) -
      (incorrectTotal (trim originalText) typedText : ℚ))
  round2 ((units / 5) / (timeIn / 60))

lemma specSpeedFormula_of_trim_nil (o t : List Char) (q : ℚ) (h : trim o = []) :
    specSpeedFormula o t q = 0 := by
  unfold specSpeedFormula
  rw [h]
  have hc : correctCount [] t = 0 := by
    unfold correctCount
    simp
  have hmax : max 0 ((correctCount [] t : ℚ) - (incorrectTotal [] t : ℚ)) = 0 := by
    rw [hc]
    have : ((0 : ℕ) : ℚ) - (incorrectTotal [] t : ℚ) ≤ 0 := by
      have := Nat.cast_nonneg (α := ℚ) (incorrectTotal [] t)
      push_cast
      linarith
    exact max_eq_left this
  rw [hmax]
  simp [round2_zero]

lemma trim_nil_of_nil : trim [] = [] := rfl

/-- Claim C9: the `wpm` field returned by `calculateScore` (both variants)
equals the spec formula: countable correct units over 5, divided by the
defaulted elapsed time in minutes, rounded to two decimal places. -/
theorem calculateScore_wpm_formula (o t : List Char) (q : ℚ) :
    (calculateScore o t q).wpm = specSpeedFormula o t q ∧
    (calculateScoreV2 o t q).wpm = specSpeedFormula o t q := by
  by_cases h1 : o = []
  · have h2 : trim o = [] := by rw [h1]; exact trim_nil_of_nil
    rw [specSpeedFormula_of_trim_nil o t q h2]
    constructor
    · simp [calculateScore, h1, zeroMetrics]
    · simp [calculateScoreV2, h1, zeroMetricsV2]
  · by_cases h2 : trim o = []
    · rw [specSpeedFormula_of_trim_nil o t q h2]
      constructor
      · simp [calculateScore, h1, h2, zeroMetrics]
      · simp [calculateScoreV2, h1, h2, zeroMetricsV2]
    · have htpos : 0 < (if q = 0 ∨ q ≤ 0 then 1 else q) := timeIn_pos q
      have htm : 0 < (if q = 0 ∨ q ≤ 0 then 1 else q) / 60 := by positivity
      have hcollapse :
          max 0 (round2 ((max 0 (((correctCount (trim o) t : ℚ) -
              (incorrectTotal (trim o) t : ℚ)) / 5)) / ((if q = 0 ∨ q ≤ 0 then 1 else q) / 60)))
            = specSpeedFormula o t q := by
        unfold specSpeedFormula
        dsimp only
        rw [max0_div5]
        exact max_eq_right (round2_nonneg (div_nonneg (le_max_left _ _) htm.le))
      constructor
      · simp only [calculateScore, h1, h2, if_false, htm, if_true]
        exact hcollapse
      · simp only [calculateScoreV2, h1, h2, if_false, htm, if_true]
        exact hcollapse

/-- Claim C10: the `netWpm` field (and with it the `wpm` field) returned
by `calculateScore` never exceeds `rawWpm`, in both scoring variants. -/
theorem calculateScore_net_le_raw (o t : List Char) (q : ℚ) :
    (calculateScore o t q).netWpm ≤ (calculateScore o t q).rawWpm ∧
    (calculateScore o t q).wpm ≤ (calculateScore o t q).rawWpm ∧
    (calculateScoreV2 o t q).netWpm ≤ (calculateScoreV2 o t q).rawWpm ∧
    (calculateScoreV2 o t q).wpm ≤ (calculateScoreV2 o t q).rawWpm := by
  by_cases h1 : o = []
  · refine ⟨?_, ?_, ?_, ?_⟩ <;> simp [calculateScore, calculateScoreV2, h1,
      zeroMetrics, zeroMetricsV2]
  · by_cases h2 : trim o = []
    · refine ⟨?_, ?_, ?_, ?_⟩ <;> simp [calculateScore, calculateScoreV2, h1, h2,
        zeroMetrics, zeroMetricsV2]
    · have htm : 0 < (if q = 0 ∨ q ≤ 0 then 1 else q) / 60 := by
        have := timeIn_pos q
        positivity
      have hkey :
          max 0 (round2 ((max 0 (((correctCount (trim o) t : ℚ) -
              (incorrectTotal (trim o) t : ℚ)) / 5)) / ((if q = 0 ∨ q ≤ 0 then 1 else q) / 60)))
          ≤ max 0 (round2 (((t.length : ℚ) / 5) / ((if q = 0 ∨ q ≤ 0 then 1 else q) / 60))) := by
        apply max_le_max le_rfl
        apply round2_mono
        apply (div_le_div_iff_of_pos_right htm).mpr
        apply max_le
        · positivity
        · have hle : (correctCount (trim o) t : ℚ) ≤ (t.length : ℚ) := by
            exact_mod_cast correctCount_le_typed (trim o) t
          have hnn := Nat.cast_nonneg (α := ℚ) (incorrectTotal (trim o) t)
          apply div_le_div_of_nonneg_right ?_ (by norm_num)
          · linarith
      refine ⟨?_, ?_, ?_, ?_⟩ <;>
        simp only [calculateScore, calculateScoreV2, h1, h2, if_false, htm, if_true] <;>
        exact hkey

/-! ### Results and the elimination ranking comparators

A `Result` document as created by `submitTypingResult`.  `submittedAt` is
the server timestamp in milliseconds (`submittedAt?.toMillis()`); the
`a.field || 0` defaulting in the comparators is the identity on present
rational fields and is noted where it matters (`netWpm`). -/

structure Result where
  userId : String
  roomId : String
  round : ℕ
  accuracy : ℚ
  wpm : ℚ
  netWpm : Option ℚ
  finalScore : ℚ
  submittedAt : ℕ
deriving Repr, DecidableEq

/-- The comparator used by the in-memory sorts of `endRound`,
`autoEndRound`, `getLeaderboard` (admin.js) and `calculateEliminations`
(roomState module): higher accuracy first when the gap exceeds 0.01, then
higher wpm when that gap exceeds 0.01, then earlier submission time. -/
def cmpResult (a b : Result) : ℚ :=
  if |a.accuracy - b.accuracy| > 1/100 then b.accuracy - a.accuracy
  else if |a.wpm - b.wpm| > 1/100 then b.wpm - a.wpm
  else (a.submittedAt : ℚ) - (b.submittedAt : ℚ)

/-- JS falsy chain `a.netWpm || a.wpm || 0` from `calculateResults`:
a missing or zero `netWpm` falls back to `wpm` (`wpm || 0` is the
identity on a rational). -/
def netWpmOrWpm (r : Result) : ℚ :=
  match r.netWpm with
  | some v => if v = 0 then r.wpm else v
  | none => r.wpm

/-- The comparator used by `calculateResults` (part_001): net WPM first,
then accuracy, then earlier submission time. -/
def cmpResultNetWpmFirst (a b : Result) : ℚ :=
  if |netWpmOrWpm a - netWpmOrWpm b| > 1/100 then netWpmOrWpm b - netWpmOrWpm a
  else if |a.accuracy - b.accuracy| > 1/100 then b.accuracy - a.accuracy
  else (a.submittedAt : ℚ) - (b.submittedAt : ℚ)

/-- Stable insertion used to model `Array.prototype.sort` (stable per
ES2019): an element is placed before the first element it compares `≤ 0`
against. -/
def insertBy (le : α → α → Bool) (x : α) : List α → List α
  | [] => [x]
  | y :: ys => if le x y then x :: y :: ys else y :: insertBy le x ys

/-- Stable sort by a boolean comparator. -/
def sortBy (le : α → α → Bool) (l : List α) : List α := l.foldr (insertBy le) []

def resultLe (a b : Result) : Bool := decide (cmpResult a b ≤ 0)

def resultLeNetWpmFirst (a b : Result) : Bool := decide (cmpResultNetWpmFirst a b ≤ 0)

/-- The in-memory ranking sort of the elimination paths. -/
def sortResults (l : List Result) : List Result := sortBy resultLe l

/-- The ranking sort of `calculateResults` (net-WPM-first policy). -/
def sortResultsNetWpmFirst (l : List Result) : List Result := sortBy resultLeNetWpmFirst l

section SortLemmas

variable {α : Type _} (le : α → α → Bool)

lemma insertBy_perm (x : α) (l : List α) : List.Perm (insertBy le x l) (x :: l) := by
  induction l with
  | nil => exact List.Perm.refl _
  | cons y ys ih =>
    unfold insertBy
    split
    · exact List.Perm.refl _
    · exact (ih.cons y).trans (List.Perm.swap x y ys)

lemma sortBy_perm (l : List α) : List.Perm (sortBy le l) l := by
  induction l with
  | nil => exact List.Perm.refl _
  | cons x xs ih => exact (insertBy_perm le x (sortBy le xs)).trans (ih.cons x)

lemma mem_sortBy {x : α} {l : List α} : x ∈ sortBy le l ↔ x ∈ l :=
  (sortBy_perm le l).mem_iff

variable {S : α → Prop}

lemma pairwise_insertBy
    (htot : ∀ a b, S a → S b → le a b = true ∨ le b a = true)
    (htrans : ∀ a b c, S a → S b → S c → le a b = true → le b c = true → le a c = true)
    {x : α} {l : List α} (hx : S x) (hl : ∀ y ∈ l, S y)
    (hp : l.Pairwise (fun a b => le a b = true)) :
    (insertBy le x l).Pairwise (fun a b => le a b = true) := by
  induction l with
  | nil => simp [insertBy]
  | cons y ys ih =>
    have hy : S y := hl y (by simp)
    have hys : ∀ z ∈ ys, S z := fun z hz => hl z (by simp [hz])
    have hyrel : ∀ z ∈ ys, le y z = true := fun z hz => List.rel_of_pairwise_cons hp hz
    have hpys : ys.Pairwise (fun a b => le a b = true) := hp.of_cons
    unfold insertBy
    by_cases hxy : le x y = true
    · rw [if_pos hxy]
      refine List.Pairwise.cons ?_ hp
      intro z hz
      rcases List.mem_cons.mp hz with rfl | hz
      · exact hxy
      · exact htrans x y z hx hy (hys z hz) hxy (hyrel z hz)
    · rw [if_neg hxy]
      refine List.Pairwise.cons ?_ (ih hys hpys)
      intro z hz
      have hz' : z ∈ x :: ys := (insertBy_perm le x ys).mem_iff.mp hz
      rcases List.mem_cons.mp hz' with rfl | hz'
      · rcases htot z y hx hy with h | h
        · exact absurd h hxy
        · exact h
      · exact hyrel z hz'

lemma pairwise_sortBy
    (htot : ∀ a b, S a → S b → le a b = true ∨ le b a = true)
    (htrans : ∀ a b c, S a → S b → S c → le a b = true → le b c = true → le a c = true)
    {l : List α} (hl : ∀ y ∈ l, S y) :
    (sortBy le l).Pairwise (fun a b => le a b = true) := by
  induction l with
  | nil => simp [sortBy]
  | cons x xs ih =>
    have hx : S x := hl x (by simp)
    have hxs : ∀ y ∈ xs, S y := fun y hy => hl y (by simp [hy])
    exact pairwise_insertBy le htot htrans hx
      (fun y hy => hxs y ((sortBy_perm le xs).mem_iff.mp hy)) (ih hxs)

lemma eq_of_perm_of_pairwiseLe
    (hanti : ∀ a b, S a → S b → le a b = true → le b a = true → a = b) :
    ∀ {l₁ l₂ : List α}, (∀ y ∈ l₁, S y) → List.Perm l₁ l₂ →
      l₁.Pairwise (fun a b => le a b = true) →
      l₂.Pairwise (fun a b => le a b = true) → l₁ = l₂ := by
  intro l₁
  induction l₁ with
  | nil =>
    intro l₂ _ hperm _ _
    exact (hperm.symm.eq_nil).symm
  | cons a t₁ ih =>
    intro l₂ hS hperm hp₁ hp₂
    match l₂ with
    | [] => exact absurd hperm.eq_nil (by simp)
    | b :: t₂ =>
      have hSa : S a := hS a (by simp)
      have hab : a = b := by
        by_cases h : a = b
        · exact h
        · have ha2 : a ∈ b :: t₂ := hperm.mem_iff.mp (by simp)
          have hat2 : a ∈ t₂ := by
            rcases List.mem_cons.mp ha2 with h' | h'
            · exact absurd h' h
            · exact h'
          have hb1 : b ∈ a :: t₁ := hperm.mem_iff.mpr (by simp)
          have hbt1 : b ∈ t₁ := by
            rcases List.mem_cons.mp hb1 with h' | h'
            · exact absurd h'.symm h
            · exact h'
          have hSb : S b := hS b (by simp [hbt1])
          have h₁ : le a b = true := List.rel_of_pairwise_cons hp₁ hbt1
          have h₂ : le b a = true := List.rel_of_pairwise_cons hp₂ hat2
          exact hanti a b hSa hSb h₁ h₂
      subst hab
      have hpt : List.Perm t₁ t₂ := hperm.cons_inv
      have ht : t₁ = t₂ :=
        ih (fun y hy => hS y (by simp [hy])) hpt hp₁.of_cons hp₂.of_cons
      rw [ht]

end SortLemmas

lemma cmpResult_neg (a b : Result) : cmpResult b a = -cmpResult a b := by
  unfold cmpResult
  rw [abs_sub_comm b.accuracy a.accuracy, abs_sub_comm b.wpm a.wpm]
  split_ifs <;> ring

lemma cmpResult_eq_zero {a b : Result}
    (hacc : a.accuracy = b.accuracy ∨ |a.accuracy - b.accuracy| > 1/100)
    (hwpm : a.wpm = b.wpm ∨ |a.wpm - b.wpm| > 1/100)
    (h : cmpResult a b = 0) :
    a.accuracy = b.accuracy ∧ a.wpm = b.wpm ∧ a.submittedAt = b.submittedAt := by
  unfold cmpResult at h
  by_cases h1 : |a.accuracy - b.accuracy| > 1/100
  · rw [if_pos h1] at h
    exfalso
    have h0 : a.accuracy - b.accuracy = 0 := by linarith
    rw [h0, abs_zero] at h1
    norm_num at h1
  · rw [if_neg h1] at h
    have haccEq : a.accuracy = b.accuracy := hacc.resolve_right h1
    by_cases h2 : |a.wpm - b.wpm| > 1/100
    · rw [if_pos h2] at h
      exfalso
      have h0 : a.wpm - b.wpm = 0 := by linarith
      rw [h0, abs_zero] at h2
      norm_num at h2
    · rw [if_neg h2] at h
      have hwpmEq : a.wpm = b.wpm := hwpm.resolve_right h2
      have ht : (a.submittedAt : ℚ) = (b.submittedAt : ℚ) := by linarith
      exact ⟨haccEq, hwpmEq, by exact_mod_cast ht⟩

lemma cmpResult_le_iff {a b : Result}
    (hacc : a.accuracy = b.accuracy ∨ |a.accuracy - b.accuracy| > 1/100)
    (hwpm : a.wpm = b.wpm ∨ |a.wpm - b.wpm| > 1/100) :
    cmpResult a b ≤ 0 ↔
      (b.accuracy < a.accuracy ∨ (a.accuracy = b.accuracy ∧
        (b.wpm < a.wpm ∨ (a.wpm = b.wpm ∧ a.submittedAt ≤ b.submittedAt)))) := by
  unfold cmpResult
  by_cases h1 : |a.accuracy - b.accuracy| > 1/100
  · rw [if_pos h1]
    have hne : a.accuracy ≠ b.accuracy := by
      intro he
      rw [he, sub_self, abs_zero] at h1
      norm_num at h1
    constructor
    · intro h
      exact Or.inl (lt_of_le_of_ne (by linarith) fun he => hne he.symm)
    · intro h
      rcases h with h | ⟨he, _⟩
      · linarith
      · exact absurd he hne
  · rw [if_neg h1]
    have haccEq : a.accuracy = b.accuracy := hacc.resolve_right h1
    by_cases h2 : |a.wpm - b.wpm| > 1/100
    · rw [if_pos h2]
      have hne : a.wpm ≠ b.wpm := by
        intro he
        rw [he, sub_self, abs_zero] at h2
        norm_num at h2
      constructor
      · intro h
        exact Or.inr ⟨haccEq, Or.inl (lt_of_le_of_ne (by linarith) fun he => hne he.symm)⟩
      · intro h
        rcases h with h | ⟨_, h | ⟨he, _⟩⟩
        · exact absurd h (by rw [haccEq]; exact lt_irrefl _)
        · linarith
        · exact absurd he hne
    · rw [if_neg h2]
      have haccEq2 := haccEq
      have hwpmEq : a.wpm = b.wpm := hwpm.resolve_right h2
      constructor
      · intro h
        refine Or.inr ⟨haccEq, Or.inr ⟨hwpmEq, ?_⟩⟩
        have ht : (a.submittedAt : ℚ) ≤ (b.submittedAt : ℚ) := by linarith
        exact_mod_cast ht
      · intro h
        rcases h with h | ⟨_, h | ⟨_, h⟩⟩
        · exact absurd h (by rw [haccEq]; exact lt_irrefl _)
        · exact absurd h (by rw [hwpmEq]; exact lt_irrefl _)
        · have ht : (a.submittedAt : ℚ) ≤ (b.submittedAt : ℚ) := by exact_mod_cast h
          linarith

/-- Claim C3 (amended): for a Result set whose accuracies and wpms are
pairwise either equal or separated by more than the 0.01 epsilon, and in
which no two distinct Results agree on accuracy, wpm and submission
timestamp simultaneously, no two distinct Results compare as exactly
equal, and the ranking produced by the comparator sort is the same for
every input permutation. (Without these separation hypotheses the claim
fails, see the counterexample.) -/
theorem sortResults_deterministic (l : List Result)
    (hacc : ∀ a ∈ l, ∀ b ∈ l, a.accuracy = b.accuracy ∨ |a.accuracy - b.accuracy| > 1/100)
    (hwpm : ∀ a ∈ l, ∀ b ∈ l, a.wpm = b.wpm ∨ |a.wpm - b.wpm| > 1/100)
    (hkey : ∀ a ∈ l, ∀ b ∈ l, a ≠ b →
      ¬(a.accuracy = b.accuracy ∧ a.wpm = b.wpm ∧ a.submittedAt = b.submittedAt)) :
    (∀ a ∈ l, ∀ b ∈ l, a ≠ b → cmpResult a b ≠ 0) ∧
    ∀ l', List.Perm l' l → sortResults l' = sortResults l := by
  have hzero : ∀ a ∈ l, ∀ b ∈ l, a ≠ b → cmpResult a b ≠ 0 := by
    intro a ha b hb hne h0
    exact hkey a ha b hb hne (cmpResult_eq_zero (hacc a ha b hb) (hwpm a ha b hb) h0)
  refine ⟨hzero, ?_⟩
  intro l' hperm
  have htot : ∀ a b : Result, a ∈ l → b ∈ l →
      resultLe a b = true ∨ resultLe b a = true := by
    intro a b _ _
    unfold resultLe
    rcases le_total (cmpResult a b) 0 with h | h
    · exact Or.inl (decide_eq_true h)
    · refine Or.inr (decide_eq_true ?_)
      rw [cmpResult_neg]
      linarith
  have hanti : ∀ a b : Result, a ∈ l → b ∈ l →
      resultLe a b = true → resultLe b a = true → a = b := by
    intro a b ha hb h1 h2
    have h1' : cmpResult a b ≤ 0 := of_decide_eq_true h1
    have h2' : cmpResult b a ≤ 0 := of_decide_eq_true h2
    rw [cmpResult_neg] at h2'
    have h0 : cmpResult a b = 0 := le_antisymm h1' (by linarith)
    by_contra hne
    exact hzero a ha b hb hne h0
  have htrans : ∀ a b c : Result, a ∈ l → b ∈ l → c ∈ l →
      resultLe a b = true → resultLe b c = true → resultLe a c = true := by
    intro a b c ha hb hc h1 h2
    have h1' := (cmpResult_le_iff (hacc a ha b hb) (hwpm a ha b hb)).mp (of_decide_eq_true h1)
    have h2' := (cmpResult_le_iff (hacc b hb c hc) (hwpm b hb c hc)).mp (of_decide_eq_true h2)
    apply decide_eq_true
    apply (cmpResult_le_iff (hacc a ha c hc) (hwpm a ha c hc)).mpr
    rcases h1' with h1' | ⟨he1, h1''⟩
    · rcases h2' with h2' | ⟨he2, _⟩
      · exact Or.inl (lt_trans h2' h1')
      · exact Or.inl (he2 ▸ h1')
    · rcases h2' with h2' | ⟨he2, h2''⟩
      · exact Or.inl (by rw [he1]; exact h2')
      · refine Or.inr ⟨he1.trans he2, ?_⟩
        rcases h1'' with h1'' | ⟨hw1, ht1⟩
        · rcases h2'' with h2'' | ⟨hw2, _⟩
          · exact Or.inl (lt_trans h2'' h1'')
          · exact Or.inl (hw2 ▸ h1'')
        · rcases h2'' with h2'' | ⟨hw2, ht2⟩
          · exact Or.inl (by rw [hw1]; exact h2'')
          · exact Or.inr ⟨hw1.trans hw2, le_trans ht1 ht2⟩
  have hmem' : ∀ y ∈ sortBy resultLe l', y ∈ l := fun y hy =>
    hperm.mem_iff.mp ((sortBy_perm resultLe l').mem_iff.mp hy)
  have hp₁ := pairwise_sortBy resultLe htot htrans (fun y hy => hperm.mem_iff.mp hy)
  have hp₂ := pairwise_sortBy resultLe htot htrans (fun y (hy : y ∈ l) => hy)
  have hpp : List.Perm (sortBy resultLe l') (sortBy resultLe l) :=
    (sortBy_perm resultLe l').trans (hperm.trans (sortBy_perm resultLe l).symm)
  exact eq_of_perm_of_pairwiseLe resultLe hanti hmem' hpp hp₁ hp₂

/-- Two distinct Results agreeing on accuracy, wpm and timestamp. -/
def dupA : Result :=
  { userId := "u1", roomId := "R", round := 1, accuracy := 95, wpm := 50, netWpm := none
    finalScore := 50, submittedAt := 7 }

def dupB : Result :=
  { userId := "u2", roomId := "R", round := 1, accuracy := 95, wpm := 50, netWpm := none
    finalScore := 50, submittedAt := 7 }

/-- Claim C3 (counterexample): two distinct Results compare as exactly
equal under the elimination comparator (the timestamp tie-break does not
separate them), and the sorted ranking of the same Result set depends on
the input permutation. -/
theorem cmpResult_not_total_order :
    dupA ≠ dupB ∧ cmpResult dupA dupB = 0 ∧
    List.Perm [dupA, dupB] [dupB, dupA] ∧
    sortResults [dupA, dupB] ≠ sortResults [dupB, dupA] := by
  refine ⟨by simp [dupA, dupB], ?_, List.Perm.swap _ _ _, ?_⟩
  · norm_num [cmpResult, dupA, dupB]
  · have h1 : sortResults [dupA, dupB] = [dupA, dupB] := by
      norm_num [sortResults, sortBy, insertBy, resultLe, cmpResult, dupA, dupB]
    have h2 : sortResults [dupB, dupA] = [dupB, dupA] := by
      norm_num [sortResults, sortBy, insertBy, resultLe, cmpResult, dupA, dupB]
    rw [h1, h2]
    simp [dupA, dupB]

/-- Witness results with pairwise-separated accuracies. -/
def sepA : Result :=
  { userId := "u1", roomId := "R", round := 1, accuracy := 100, wpm := 50, netWpm := none
    finalScore := 50, submittedAt := 1 }

def sepB : Result :=
  { userId := "u2", roomId := "R", round := 1, accuracy := 95, wpm := 40, netWpm := none
    finalScore := 40, submittedAt := 2 }

theorem sortResults_deterministic_witness :
    cmpResult sepA sepB ≠ 0 ∧ sortResults [sepB, sepA] = sortResults [sepA, sepB] :=
  ⟨(sortResults_deterministic [sepA, sepB]
      (by intro a ha b hb; fin_cases ha <;> fin_cases hb <;> norm_num [sepA, sepB])
      (by intro a ha b hb; fin_cases ha <;> fin_cases hb <;> norm_num [sepA, sepB])
      (by intro a ha b hb; fin_cases ha <;> fin_cases hb <;> norm_num [sepA, sepB])).1
      sepA (by simp) sepB (by simp) (by simp [sepA, sepB]),
    (sortResults_deterministic [sepA, sepB]
      (by intro a ha b hb; fin_cases ha <;> fin_cases hb <;> norm_num [sepA, sepB])
      (by intro a ha b hb; fin_cases ha <;> fin_cases hb <;> norm_num [sepA, sepB])
      (by intro a ha b hb; fin_cases ha <;> fin_cases hb <;> norm_num [sepA, sepB])).2
      [sepB, sepA] (List.Perm.swap _ _ _)⟩

/-- Scenario Result A of the spec: accuracy 95, speed 50. -/
def scenarioA : Result :=
  { userId := "A", roomId := "R", round := 1, accuracy := 95, wpm := 50, netWpm := none
    finalScore := 50, submittedAt := 5 }

/-- Scenario Result B of the spec: accuracy 95.005, speed 53. -/
def scenarioB : Result :=
  { userId := "B", roomId := "R", round := 1, accuracy := 19001/200, wpm := 53, netWpm := none
    finalScore := 53, submittedAt := 5 }

/-- Claim C4 (amended): the in-memory elimination comparator implements
the accuracy / wpm / timestamp tie-break chain with the 0.01 epsilon, and
in the concrete scenario (A accuracy 95 speed 50, B accuracy 95.005 speed
53) B ranks above A; but this policy is not the one applied on every code
path — `calculateResults` ranks by net WPM first (see the
counterexample). -/
theorem cmpResult_tiebreak_chain :
    (∀ a b : Result, a.accuracy - b.accuracy > 1/100 → cmpResult a b < 0) ∧
    (∀ a b : Result, |a.accuracy - b.accuracy| ≤ 1/100 → a.wpm - b.wpm > 1/100 →
      cmpResult a b < 0) ∧
    (∀ a b : Result, |a.accuracy - b.accuracy| ≤ 1/100 → |a.wpm - b.wpm| ≤ 1/100 →
      a.submittedAt < b.submittedAt → cmpResult a b < 0) ∧
    sortResults [scenarioA, scenarioB] = [scenarioB, scenarioA] ∧
    sortResults [scenarioB, scenarioA] = [scenarioB, scenarioA] := by
  refine ⟨?_, ?_, ?_,
    by norm_num [sortResults, sortBy, insertBy, resultLe, cmpResult, abs_of_nonneg, scenarioA, scenarioB],
    by norm_num [sortResults, sortBy, insertBy, resultLe, cmpResult, abs_of_nonneg, scenarioA, scenarioB]⟩
  · intro a b h
    unfold cmpResult
    rw [if_pos (lt_of_lt_of_le h (le_abs_self _))]
    linarith
  · intro a b h1 h2
    unfold cmpResult
    rw [if_neg (not_lt.mpr h1), if_pos (lt_of_lt_of_le h2 (le_abs_self _))]
    linarith
  · intro a b h1 h2 h3
    unfold cmpResult
    rw [if_neg (not_lt.mpr h1), if_neg (not_lt.mpr h2)]
    have ht : (a.submittedAt : ℚ) < (b.submittedAt : ℚ) := by exact_mod_cast h3
    linarith

theorem cmpResult_tiebreak_chain_witness : cmpResult scenarioB scenarioA < 0 :=
  cmpResult_tiebreak_chain.2.1 scenarioB scenarioA
    (by norm_num [abs_of_nonneg, scenarioA, scenarioB]) (by norm_num [scenarioA, scenarioB])

/-- Result with top accuracy but lower wpm. -/
def pathX : Result :=
  { userId := "X", roomId := "R", round := 1, accuracy := 100, wpm := 50, netWpm := none
    finalScore := 50, submittedAt := 0 }

/-- Result with lower accuracy but higher wpm. -/
def pathY : Result :=
  { userId := "Y", roomId := "R", round := 1, accuracy := 90, wpm := 60, netWpm := none
    finalScore := 60, submittedAt := 0 }

/-- Claim C4 (counterexample): the repository does not apply a single
ranking policy on every code path — the accuracy-first sort used by the
elimination paths and the net-WPM-first sort used by `calculateResults`
order the same two Results differently. -/
theorem ranking_policy_inconsistent :
    sortResults [pathX, pathY] = [pathX, pathY] ∧
    sortResultsNetWpmFirst [pathX, pathY] = [pathY, pathX] ∧
    sortResults [pathX, pathY] ≠ sortResultsNetWpmFirst [pathX, pathY] := by
  have h1 : sortResults [pathX, pathY] = [pathX, pathY] := by
    norm_num [sortResults, sortBy, insertBy, resultLe, cmpResult, pathX, pathY]
  have h2 : sortResultsNetWpmFirst [pathX, pathY] = [pathY, pathX] := by
    norm_num [sortResultsNetWpmFirst, sortBy, insertBy, resultLeNetWpmFirst,
      cmpResultNetWpmFirst, netWpmOrWpm, pathX, pathY]
  refine ⟨h1, h2, ?_⟩
  rw [h1, h2]
  simp [pathX, pathY]

/-! ### Game state and the round-lifecycle operations

The Firestore collections are modelled as lists inside a single
`GameState` (one room per state; the `roomId` arguments are still
compared against the room's id as the code does).  `serverTimestamp()` is
modelled by an explicit `now` argument where a write stores it; the
room's pure timestamp fields (`roundStartedAt`, `lastUpdated`,
`roundEndedAt`) carry no game logic and are not modelled.  Where a
Firestore query has an indexed `orderBy('finalScore')` path and an
in-memory-comparator fallback path, the comparator path is the one
embedded (`sortResults`). -/

structure Participant where
  id : String
  roomId : String
  name : String
  status : String
  currentRound : ℕ
  isEliminated : Bool
  isQualified : Bool
  isWinnerEligible : Bool
  eliminatedInRound : Option ℕ
deriving Repr, DecidableEq

structure Room where
  id : String
  status : String
  roundStatus : String
  currentRound : ℕ
deriving Repr, DecidableEq

structure GameState where
  room : Room
  participants : List Participant
  results : List Result
  config : Option (List (ℕ × ℕ))
deriving Repr, DecidableEq

/-- Model of `getRoomConfig(roomId)`: the `roomConfig` document, or `none` when it
is missing (`config` maps round numbers to their `qualifyCount`). -/
def getRoomConfig (s : GameState) (roomId : String) : Option (List (ℕ × ℕ)) :=
  if roomId = s.room.id then s.config else none

/-- Lookup of `config.rounds[r${n}].qualifyCount`. -/
def lookupQualify (cfg : List (ℕ × ℕ)) (r : ℕ) : Option ℕ :=
  (cfg.find? fun p => p.1 == r).map (·.2)

/-- All Results `where roomId == roomId and round == roundNumber`. -/
def roundResults (s : GameState) (roomId : String) (roundNumber : ℕ) : List Result :=
  s.results.filter fun r => r.roomId == roomId && r.round == roundNumber

structure StartResponse where
  success : Bool
  error : Option String := none
deriving Repr, DecidableEq

structure EndResponse where
  success : Bool
  error : Option String := none
  qualified : ℕ := 0
  eliminated : ℕ := 0
deriving Repr, DecidableEq

structure AutoEndResponse where
  success : Bool
  error : Option String := none
  alreadyProcessed : Bool := false
  qualified : ℕ := 0
  eliminated : ℕ := 0
deriving Repr, DecidableEq

structure ElimResponse where
  success : Bool
  error : Option String := none
  alreadyProcessed : Bool := false
  qualified : ℕ := 0
  eliminated : ℕ := 0
  qualifiedUserIds : List String := []
  eliminatedUserIds : List String := []
deriving Repr, DecidableEq

structure ScoreSummary where
  accuracy : ℚ
  wpm : ℚ
  finalScore : ℚ
deriving Repr, DecidableEq

structure SubmitResponse where
  success : Bool
  error : Option String := none
  alreadySubmitted : Bool := false
  score : Option ScoreSummary := none
deriving Repr, DecidableEq

/-- The `validTransitions` table of admin.js `startRound`. -/
def validTransitions (status : String) : Option String :=
  if status = "waiting" then some "round1"
  else if status = "round1_leaderboard" then some "round2"
  else if status = "round2_waiting" then some "round2"
  else if status = "round2_leaderboard" then some "round3"
  else if status = "round3_waiting" then some "round3"
  else none

/-- The template string `round${n}`. -/
def roundName (n : ℕ) : String := "round" ++ toString n

/-- JS `roomDoc.data().status || 'waiting'`. -/
def statusOrWaiting (s : String) : String := if s = "" then "waiting" else s

/-- The per-participant update of admin.js `startRound`'s batch loop:
non-eliminated room participants become `active` for the round. -/
def startRoundUpdate (roomId : String) (roundNumber : ℕ) (p : Participant) : Participant :=
  if p.roomId = roomId ∧ p.status ≠ "eliminated" ∧ p.isEliminated = false then
    { p with status := "active", currentRound := roundNumber }
  else p

/-- The per-participant update of the single-round `startRound`'s batch
loop: every room participant becomes `active` (no eliminated-guard). -/
def startRoundV1Update (roomId : String) (p : Participant) : Participant :=
  if p.roomId = roomId then { p with status := "active", currentRound := 1 } else p

/-- The per-participant update of admin.js `endRound`'s batch loop. -/
def endRoundUpdate (roomId : String) (roundNumber : ℕ) (qualifiedUserIds : List String)
    (p : Participant) : Participant :=
  if p.roomId = roomId then
    if qualifiedUserIds.contains p.id then
      { p with status := "qualified", currentRound := roundNumber }
    else
      { p with status := "eliminated", currentRound := roundNumber }
  else p

/-- The per-participant update of `autoEndRound`'s batch loop: only
participants with a Result this round are touched. -/
def autoEndUpdate (roomId : String) (roundNumber : ℕ) (results : List Result)
    (qualifiedUserIds : List String) (p : Participant) : Participant :=
  if p.roomId = roomId ∧ (results.any fun r => r.userId == p.id) then
    if qualifiedUserIds.contains p.id then
      { p with status := "qualified", currentRound := roundNumber }
    else
      { p with status := "eliminated", currentRound := roundNumber }
  else p

/-- The per-participant update of `calculateEliminations`' batch loop:
not-already-eliminated room participants are updated — non-submitters to
`eliminated`, submitters per the top-`qualifyCount` cut. -/
def elimUpdate (roomId : String) (roundNumber qualifyCount : ℕ) (results : List Result)
    (p : Participant) : Participant :=
  if p.roomId = roomId ∧ p.isEliminated = false ∧ p.status ≠ "eliminated" then
    if ¬(results.any fun r => r.userId == p.id) then
      { p with
          status := "eliminated", isEliminated := true
          eliminatedInRound := some roundNumber, isQualified := false
          isWinnerEligible := false, currentRound := roundNumber }
    else if ((results.take qualifyCount).map (·.userId)).contains p.id then
      { p with
          status := "qualified", isQualified := true, isEliminated := false
          currentRound := roundNumber, isWinnerEligible := roundNumber == 3 }
    else
      { p with
          status := "eliminated", isEliminated := true
          eliminatedInRound := some roundNumber, isQualified := false
          isWinnerEligible := false, currentRound := roundNumber }
  else p

/-- Model of `startRound` from admin.js: validates the transition table but only
rejects when `roundNumber > 1`, then marks the room active and flips
every non-eliminated room participant to `active`. -/
def startRound (s : GameState) (roomId : String) (roundNumber : ℕ) :
    StartResponse × GameState :=
  if roomId ≠ s.room.id then ({ success := false, error := some "Room not found" }, s)
  else
    let currentStatus := statusOrWaiting s.room.status
    let expectedStatus := roundName roundNumber
    let canTransition :=
      validTransitions currentStatus = some expectedStatus ∨
        currentStatus = roundName roundNumber ++ "_waiting"
    if ¬canTransition ∧ 1 < roundNumber then
      ({ success := false
         error := some ("Cannot start round " ++ toString roundNumber ++ " from state: " ++
           currentStatus) }, s)
    else
      let room' := { s.room with
        status := expectedStatus, currentRound := roundNumber, roundStatus := "active" }
      let participants' := s.participants.map (startRoundUpdate roomId roundNumber)
      ({ success := true }, { s with room := room', participants := participants' })

/-- Model of `startRound` from the single-round module (part_001): only round 1 from
`waiting` is allowed, and then every room participant — with no
eliminated-guard — is set `active`. -/
def startRoundV1 (s : GameState) (roomId : String) (roundNumber : ℕ) :
    StartResponse × GameState :=
  if roomId ≠ s.room.id then ({ success := false, error := some "Room not found" }, s)
  else
    let currentStatus := statusOrWaiting s.room.status
    if roundNumber ≠ 1 ∨ currentStatus ≠ "waiting" then
      ({ success := false
         error := some ("Cannot start round from state: " ++ currentStatus) }, s)
    else
      let room' := { s.room with status := "round1", currentRound := 1, roundStatus := "active" }
      let participants' := s.participants.map (startRoundV1Update roomId)
      ({ success := true }, { s with room := room', participants := participants' })

/-- Model of `endRound` from admin.js (in-memory-sort path): ranks this round's
Results, takes the top `qualifyCount` as qualified, and rewrites **every**
room participant to `qualified` or `eliminated`. -/
def endRound (s : GameState) (roomId : String) (roundNumber : ℕ) :
    EndResponse × GameState :=
  match getRoomConfig s roomId with
  | none => ({ success := false, error := some "Room config not found" }, s)
  | some cfg =>
    match lookupQualify cfg roundNumber with
    | none =>
      ({ success := false
         error := some ("Round " ++ toString roundNumber ++ " config not found") }, s)
    | some qualifyCount =>
      let results := sortResults (roundResults s roomId roundNumber)
      if results = [] then
        ({ success := false, error := some "No results found for this round." }, s)
      else
        let qualifiedUserIds := (results.take qualifyCount).map (·.userId)
        let roomParticipants := s.participants.filter fun p => p.roomId == roomId
        if roomParticipants = [] then
          ({ success := false, error := some "No participants found in this room" }, s)
        else
          let participants' :=
            s.participants.map (endRoundUpdate roomId roundNumber qualifiedUserIds)
          let qualifiedCount :=
            (roomParticipants.filter fun p => qualifiedUserIds.contains p.id).length
          let eliminatedCount := roomParticipants.length - qualifiedCount
          let room' :=
            if roundNumber = 3 then
              { s.room with roundStatus := "completed", currentRound := 3 }
            else
              { s.room with roundStatus := "waiting", currentRound := roundNumber }
          ({ success := true, qualified := qualifiedCount, eliminated := eliminatedCount },
            { s with room := room', participants := participants' })

/-- Model of `autoEndRound` from admin.js: a read-then-decide idempotency guard on
participant statuses, then the same ranking; but **only participants with
a Result this round are updated** — non-submitters are left unchanged. -/
def autoEndRound (s : GameState) (roomId : String) (roundNumber : ℕ) :
    AutoEndResponse × GameState :=
  let roomParticipants := s.participants.filter fun p => p.roomId == roomId
  if roomParticipants = [] then
    ({ success := false, error := some "No participants found" }, s)
  else if roomParticipants.any fun p =>
      (p.status == "qualified" || p.status == "eliminated") && p.currentRound == roundNumber then
    ({ success := true, alreadyProcessed := true }, s)
  else
    match getRoomConfig s roomId with
    | none => ({ success := false, error := some "Room config not found" }, s)
    | some cfg =>
      match lookupQualify cfg roundNumber with
      | none =>
        ({ success := false
           error := some ("Round " ++ toString roundNumber ++ " config not found") }, s)
      | some qualifyCount =>
        let results := sortResults (roundResults s roomId roundNumber)
        if results = [] then
          ({ success := false, error := some "No results found yet" }, s)
        else
          let qualifiedUserIds := (results.take qualifyCount).map (·.userId)
          let participants' :=
            s.participants.map (autoEndUpdate roomId roundNumber results qualifiedUserIds)
          let qualifiedCount := (roomParticipants.filter fun p =>
            (results.any fun r => r.userId == p.id) && qualifiedUserIds.contains p.id).length
          let eliminatedCount := (roomParticipants.filter fun p =>
            (results.any fun r => r.userId == p.id) && !qualifiedUserIds.contains p.id).length
          let room' :=
            if roundNumber = 3 then
              { s.room with roundStatus := "completed", currentRound := 3 }
            else
              { s.room with roundStatus := "waiting", currentRound := roundNumber }
          ({ success := true, qualified := qualifiedCount, eliminated := eliminatedCount },
            { s with room := room', participants := participants' })

/-- Model of `calculateEliminations` from the room-state module (part_001): guard on
already-terminal statuses for this round, rank this round's Results, then
update every **not-already-eliminated** room participant: submitters get
qualified/eliminated by the top-`qualifyCount` cut, non-submitters are
unconditionally eliminated. -/
def calculateEliminations (s : GameState) (roomId : String)
    (roundNumber qualifyCount : ℕ) : ElimResponse × GameState :=
  let roomParticipants := s.participants.filter fun p => p.roomId == roomId
  if roomParticipants.any fun p =>
      p.currentRound == roundNumber && (p.status == "qualified" || p.status == "eliminated") then
    ({ success := true, alreadyProcessed := true }, s)
  else
    let results := sortResults (roundResults s roomId roundNumber)
    if results = [] then ({ success := false, error := some "No results" }, s)
    else
      let qualifiedUserIds := (results.take qualifyCount).map (·.userId)
      let eliminatedUserIds := (results.drop qualifyCount).map (·.userId)
      let participants' :=
        s.participants.map (elimUpdate roomId roundNumber qualifyCount results)
      let activeParticipants := roomParticipants.filter fun p =>
        !p.isEliminated && p.status != "eliminated"
      let qualifiedCount := (activeParticipants.filter fun p =>
        (results.any fun r => r.userId == p.id) && qualifiedUserIds.contains p.id).length
      let eliminatedCount := activeParticipants.length - qualifiedCount
      ({ success := true, qualified := qualifiedCount, eliminated := eliminatedCount
         qualifiedUserIds := qualifiedUserIds, eliminatedUserIds := eliminatedUserIds },
        { s with participants := participants' })

/-- Model of `submitTypingResult` from admin.js: validation, duplicate check on
(userId, roomId, round) returning the first existing Result's metrics
with `alreadySubmitted`, else score and append.  The participant-name
lookup is presentation-only and omitted; the `isNaN` re-check cannot fire
over `ℚ`. -/
def submitTypingResult (s : GameState) (userId roomId : String) (roundNumber : ℕ)
    (originalText typedText : List Char) (timeInSeconds : ℚ) (now : ℕ) :
    SubmitResponse × GameState :=
  if userId = "" ∨ roomId = "" ∨ roundNumber = 0 ∨ originalText = [] ∨ timeInSeconds = 0 then
    ({ success := false, error := some "Invalid input parameters" }, s)
  else if timeInSeconds ≤ 0 ∨ 3600 < timeInSeconds then
    ({ success := false, error := some "Invalid time value" }, s)
  else
    match s.results.filter fun r =>
        r.userId == userId && r.roomId == roomId && r.round == roundNumber with
    | e :: _ =>
      ({ success := true, alreadySubmitted := true
         score := some { accuracy := e.accuracy, wpm := e.wpm, finalScore := e.finalScore } }, s)
    | [] =>
      let score := calculateScore originalText typedText timeInSeconds
      let newResult : Result :=
        { userId := userId, roomId := roomId, round := roundNumber
          accuracy := score.accuracy, wpm := score.wpm, netWpm := none
          finalScore := score.finalScore, submittedAt := now }
      ({ success := true
         score :=
           some { accuracy := score.accuracy, wpm := score.wpm
                  finalScore := score.finalScore } },
        { s with results := s.results ++ [newResult] })

/-- Claim C5: when a Result already exists for (participant, room, round)
— and the call passes the input validation gates — `submitTypingResult`
creates no new record, returns success with `alreadySubmitted` and the
first-recorded Result's metrics (whatever text or time the call carries),
and the ledger still holds exactly that one record for the key. -/
theorem submitTypingResult_duplicate (s : GameState) (userId roomId : String)
    (roundNumber : ℕ) (originalText typedText : List Char) (timeInSeconds : ℚ) (now : ℕ)
    (r0 : Result)
    (hu : userId ≠ "") (hr : roomId ≠ "") (hn : roundNumber ≠ 0) (ho : originalText ≠ [])
    (ht1 : 0 < timeInSeconds) (ht2 : timeInSeconds ≤ 3600)
    (hex : (s.results.filter fun r =>
        r.userId == userId && r.roomId == roomId && r.round == roundNumber) = [r0]) :
    submitTypingResult s userId roomId roundNumber originalText typedText timeInSeconds now =
      ({ success := true, error := none, alreadySubmitted := true
         score :=
           some { accuracy := r0.accuracy, wpm := r0.wpm, finalScore := r0.finalScore } },
        s) ∧
    ((submitTypingResult s userId roomId roundNumber originalText typedText timeInSeconds
        now).2.results.filter fun r =>
          r.userId == userId && r.roomId == roomId && r.round == roundNumber) = [r0] := by
  have hc1 : ¬(userId = "" ∨ roomId = "" ∨ roundNumber = 0 ∨ originalText = [] ∨
      timeInSeconds = 0) := by
    push_neg
    exact ⟨hu, hr, hn, ho, ne_of_gt ht1⟩
  have hc2 : ¬(timeInSeconds ≤ 0 ∨ 3600 < timeInSeconds) := by
    push_neg
    exact ⟨ht1, ht2⟩
  have hmain : submitTypingResult s userId roomId roundNumber originalText typedText
      timeInSeconds now =
      ({ success := true, error := none, alreadySubmitted := true
         score :=
           some { accuracy := r0.accuracy, wpm := r0.wpm, finalScore := r0.finalScore } },
        s) := by
    unfold submitTypingResult
    rw [if_neg hc1, if_neg hc2, hex]
  refine ⟨hmain, ?_⟩
  rw [hmain]
  exact hex

/-- The pre-existing ledger record for the duplicate-submission witness. -/
def c5res : Result :=
  { userId := "u", roomId := "R", round := 1, accuracy := 100, wpm := 40, netWpm := none
    finalScore := 40, submittedAt := 3 }

def c5state : GameState :=
  { room := { id := "R", status := "round1", roundStatus := "active", currentRound := 1 }
    participants := [], results := [c5res], config := none }

theorem submitTypingResult_duplicate_witness :
    submitTypingResult c5state "u" "R" 1 ['a'] ['b'] 60 9 =
      ({ success := true, error := none, alreadySubmitted := true
         score :=
           some { accuracy := c5res.accuracy, wpm := c5res.wpm
                  finalScore := c5res.finalScore } },
        c5state) ∧
    ((submitTypingResult c5state "u" "R" 1 ['a'] ['b'] 60 9).2.results.filter fun r =>
        r.userId == "u" && r.roomId == "R" && r.round == 1) = [c5res] :=
  submitTypingResult_duplicate c5state "u" "R" 1 ['a'] ['b'] 60 9 c5res
    (by decide) (by decide) (by decide) (by decide) (by norm_num) (by norm_num)
    (by decide)

/-- Room sitting in `round2` state: not an allowed predecessor of round 1. -/
def c6state : GameState :=
  { room := { id := "R", status := "round2", roundStatus := "active", currentRound := 2 }
    participants := [], results := [], config := none }

/-- Claim C6 (counterexample): for r = 1 the admin.js `startRound` does
not reject an invalid predecessor state — called on a room whose status
is `round2` it succeeds and rewrites the room's state. -/
theorem startRound_round1_not_rejected :
    (startRound c6state "R" 1).1.success = true ∧
    (startRound c6state "R" 1).2.room.status = "round1" ∧
    (startRound c6state "R" 1).2 ≠ c6state := by
  refine ⟨rfl, rfl, ?_⟩
  decide

/-- Claim C6 (amended): the admin.js `startRound` rejects — with no state
change — whenever `r > 1` and the room is absent or its status is not an
allowed predecessor (`round(r)_waiting`, or a state the transition table
maps to `round r`); for `r = 1` this variant performs no status check at
all, but the single-round variant `startRoundV1` does reject round 1
whenever the status is not `waiting` (and rejects any `r ≠ 1`). -/
theorem startRound_rejects_invalid :
    (∀ (s : GameState) (roomId : String) (r : ℕ), 1 < r →
      (roomId = s.room.id →
        ¬(validTransitions (statusOrWaiting s.room.status) = some (roundName r) ∨
          statusOrWaiting s.room.status = roundName r ++ "_waiting")) →
      (startRound s roomId r).1.success = false ∧ (startRound s roomId r).2 = s) ∧
    (∀ (s : GameState) (roomId : String) (r : ℕ),
      (roomId = s.room.id → ¬(r = 1 ∧ statusOrWaiting s.room.status = "waiting")) →
      (startRoundV1 s roomId r).1.success = false ∧ (startRoundV1 s roomId r).2 = s) := by
  constructor
  · intro s roomId r hr hbad
    by_cases hid : roomId = s.room.id
    · have hcan := hbad hid
      unfold startRound
      rw [if_neg (by simp [hid]), if_pos ⟨hcan, hr⟩]
      exact ⟨rfl, rfl⟩
    · unfold startRound
      rw [if_pos hid]
      exact ⟨rfl, rfl⟩
  · intro s roomId r hbad
    by_cases hid : roomId = s.room.id
    · have hcan := hbad hid
      unfold startRoundV1
      rw [if_neg (by simp [hid]), if_pos (by tauto)]
      exact ⟨rfl, rfl⟩
    · unfold startRoundV1
      rw [if_pos hid]
      exact ⟨rfl, rfl⟩

/-- Room sitting in `round1` state (mid-round). -/
def c6state2 : GameState :=
  { room := { id := "R", status := "round1", roundStatus := "active", currentRound := 1 }
    participants := [], results := [], config := none }

theorem startRound_rejects_invalid_witness :
    ((startRound c6state2 "R" 2).1.success = false ∧ (startRound c6state2 "R" 2).2 = c6state2) ∧
    ((startRoundV1 c6state "R" 1).1.success = false ∧ (startRoundV1 c6state "R" 1).2 = c6state) :=
  ⟨startRound_rejects_invalid.1 c6state2 "R" 2 (by decide) (fun _ => by decide),
    startRound_rejects_invalid.2 c6state "R" 1 (fun _ => by decide)⟩

/-- Active round-1 participant who submits. -/
def c1pa : Participant :=
  { id := "a", roomId := "R", name := "a", status := "active", currentRound := 1
    isEliminated := false, isQualified := false, isWinnerEligible := false
    eliminatedInRound := none }

/-- Active round-1 participant who never submits. -/
def c1pb : Participant :=
  { id := "b", roomId := "R", name := "b", status := "active", currentRound := 1
    isEliminated := false, isQualified := false, isWinnerEligible := false
    eliminatedInRound := none }

def c1res : Result :=
  { userId := "a", roomId := "R", round := 1, accuracy := 100, wpm := 40, netWpm := none
    finalScore := 40, submittedAt := 1 }

def c1state : GameState :=
  { room := { id := "R", status := "round1", roundStatus := "active", currentRound := 1 }
    participants := [c1pa, c1pb], results := [c1res], config := some [(1, 1)] }

/-- Claim C1 (counterexample): a successful `autoEndRound` run leaves an
active non-submitter (participant `b`) with status `active` — it is not
set to `eliminated` as the claim requires of every elimination run. -/
theorem autoEndRound_leaves_nonsubmitter_active :
    (autoEndRound c1state "R" 1).1.success = true ∧
    (autoEndRound c1state "R" 1).1.alreadyProcessed = false ∧
    ((autoEndRound c1state "R" 1).2.participants.map fun p => (p.id, p.status)) =
      [("a", "qualified"), ("b", "active")] := by
  refine ⟨rfl, rfl, ?_⟩
  decide

/-- Claim C1 (amended): the property holds of `calculateEliminations`
(not of `autoEndRound`, which leaves non-submitters untouched): after a
fresh successful run for round r with qualify count k, the top
min(k, number of Results) ranked userIds qualify, and every room
participant not already eliminated is set `qualified` exactly when its id
is in that top slice and `eliminated` otherwise — in particular every
active non-submitter is eliminated; already-eliminated and out-of-room
participants are untouched. -/
theorem calculateEliminations_assignment
    (s : GameState) (roomId : String) (roundNumber qualifyCount : ℕ)
    (i : ℕ) (p : Participant)
    (hfresh : ∀ q ∈ s.participants, q.roomId = roomId →
      ¬(q.currentRound = roundNumber ∧ (q.status = "qualified" ∨ q.status = "eliminated")))
    (hres : roundResults s roomId roundNumber ≠ [])
    (hp : s.participants[i]? = some p) :
    (calculateEliminations s roomId roundNumber qualifyCount).1.success = true ∧
    (calculateEliminations s roomId roundNumber qualifyCount).1.alreadyProcessed = false ∧
    (((sortResults (roundResults s roomId roundNumber)).take qualifyCount).map
        (·.userId)).length = min qualifyCount (roundResults s roomId roundNumber).length ∧
    ∃ p', (calculateEliminations s roomId roundNumber qualifyCount).2.participants[i]? =
        some p' ∧
      (¬(p.roomId = roomId ∧ p.isEliminated = false ∧ p.status ≠ "eliminated") → p' = p) ∧
      (p.roomId = roomId → p.isEliminated = false → p.status ≠ "eliminated" →
        ((((sortResults (roundResults s roomId roundNumber)).take qualifyCount).map
            (·.userId)).contains p.id = true →
          p'.status = "qualified" ∧ p'.currentRound = roundNumber) ∧
        ((((sortResults (roundResults s roomId roundNumber)).take qualifyCount).map
            (·.userId)).contains p.id = false →
          p'.status = "eliminated" ∧ p'.currentRound = roundNumber)) := by
  have hguard : ((s.participants.filter fun q => q.roomId == roomId).any fun q =>
      q.currentRound == roundNumber &&
        (q.status == "qualified" || q.status == "eliminated")) = false := by
    rw [List.any_eq_false]
    intro q hq
    have hm := List.mem_filter.mp hq
    have hroom : q.roomId = roomId := by simpa using hm.2
    have hnot := hfresh q hm.1 hroom
    simp only [Bool.and_eq_true, Bool.or_eq_true, beq_iff_eq]
    exact fun h => hnot ⟨h.1, h.2⟩
  have hins : sortResults (roundResults s roomId roundNumber) ≠ [] := by
    intro h
    have hperm : List.Perm (sortResults (roundResults s roomId roundNumber))
        (roundResults s roomId roundNumber) := sortBy_perm resultLe _
    rw [h] at hperm
    exact hres hperm.symm.eq_nil
  have hlen : (((sortResults (roundResults s roomId roundNumber)).take qualifyCount).map
      (·.userId)).length = min qualifyCount (roundResults s roomId roundNumber).length := by
    have hl : (sortResults (roundResults s roomId roundNumber)).length =
        (roundResults s roomId roundNumber).length :=
      List.Perm.length_eq (sortBy_perm resultLe _)
    rw [List.length_map, List.length_take, hl]
  refine ⟨?_, ?_, hlen, ?_⟩
  · unfold calculateEliminations
    rw [if_neg (by rw [hguard]; exact Bool.false_ne_true), if_neg hins]
  · unfold calculateEliminations
    rw [if_neg (by rw [hguard]; exact Bool.false_ne_true), if_neg hins]
  · unfold calculateEliminations
    rw [if_neg (by rw [hguard]; exact Bool.false_ne_true), if_neg hins]
    simp only [List.getElem?_map, hp, Option.map_some']
    refine ⟨_, rfl, ?_, ?_⟩
    · intro hnot
      unfold elimUpdate
      exact if_neg hnot
    · intro h1 h2 h3
      unfold elimUpdate
      constructor
      · intro hcont
        have hmemIds : p.id ∈ ((sortResults (roundResults s roomId roundNumber)).take
            qualifyCount).map (·.userId) := by
          simpa using hcont
        obtain ⟨r, hrtake, hruid⟩ := List.mem_map.mp hmemIds
        have hrsorted : r ∈ sortResults (roundResults s roomId roundNumber) :=
          List.take_subset _ _ hrtake
        have hany : ((sortResults (roundResults s roomId roundNumber)).any fun r =>
            r.userId == p.id) = true :=
          List.any_eq_true.mpr ⟨r, hrsorted, by simp [hruid]⟩
        rw [if_pos ⟨h1, h2, h3⟩]
        rw [if_neg (not_not_intro hany)]
        rw [if_pos hcont]
        exact ⟨rfl, rfl⟩
      · intro hcont
        rw [if_pos ⟨h1, h2, h3⟩]
        cases hb : ((sortResults (roundResults s roomId roundNumber)).any fun r =>
            r.userId == p.id) with
        | false =>
          rw [if_pos (Bool.false_ne_true : ¬(false = true))]
          exact ⟨rfl, rfl⟩
        | true =>
          rw [if_neg (not_not_intro (rfl : (true : Bool) = true)),
            if_neg (by rw [hcont]; exact Bool.false_ne_true)]
          exact ⟨rfl, rfl⟩

theorem calculateEliminations_assignment_witness :
    (calculateEliminations c1state "R" 1 1).1.success = true ∧
    (calculateEliminations c1state "R" 1 1).1.alreadyProcessed = false ∧
    (((sortResults (roundResults c1state "R" 1)).take 1).map (·.userId)).length =
      min 1 (roundResults c1state "R" 1).length ∧
    ∃ p', (calculateEliminations c1state "R" 1 1).2.participants[1]? = some p' ∧
      (¬(c1pb.roomId = "R" ∧ c1pb.isEliminated = false ∧ c1pb.status ≠ "eliminated") →
        p' = c1pb) ∧
      (c1pb.roomId = "R" → c1pb.isEliminated = false → c1pb.status ≠ "eliminated" →
        ((((sortResults (roundResults c1state "R" 1)).take 1).map
            (·.userId)).contains c1pb.id = true →
          p'.status = "qualified" ∧ p'.currentRound = 1) ∧
        ((((sortResults (roundResults c1state "R" 1)).take 1).map
            (·.userId)).contains c1pb.id = false →
          p'.status = "eliminated" ∧ p'.currentRound = 1)) :=
  calculateEliminations_assignment c1state "R" 1 1 1 c1pb (by decide) (by decide) rfl

lemma sortResults_ne_nil {l : List Result} (h : l ≠ []) : sortResults l ≠ [] := by
  intro hh
  have hperm : List.Perm (sortResults l) l := sortBy_perm resultLe _
  rw [hh] at hperm
  exact h hperm.symm.eq_nil

lemma calculateEliminations_early (s : GameState) (roomId : String) (r k : ℕ)
    (hg : ((s.participants.filter fun p => p.roomId == roomId).any fun p =>
        p.currentRound == r && (p.status == "qualified" || p.status == "eliminated")) = true) :
    calculateEliminations s roomId r k = ({ success := true, alreadyProcessed := true }, s) := by
  unfold calculateEliminations
  rw [if_pos hg]

lemma calculateEliminations_fresh (s : GameState) (roomId : String) (r k : ℕ)
    (hg : ((s.participants.filter fun p => p.roomId == roomId).any fun p =>
        p.currentRound == r && (p.status == "qualified" || p.status == "eliminated")) = false)
    (hsr : sortResults (roundResults s roomId r) ≠ []) :
    (calculateEliminations s roomId r k).2 =
      { s with participants :=
          s.participants.map (elimUpdate roomId r k (sortResults (roundResults s roomId r))) }
      := by
  unfold calculateEliminations
  rw [if_neg (by rw [hg]; exact Bool.false_ne_true), if_neg hsr]

lemma elimUpdate_roomId (roomId : String) (r k : ℕ) (res : List Result) (p : Participant) :
    (elimUpdate roomId r k res p).roomId = p.roomId := by
  unfold elimUpdate
  split_ifs <;> rfl

lemma elimUpdate_active (roomId : String) (r k : ℕ) (res : List Result) (p : Participant)
    (h1 : p.roomId = roomId) (h2 : p.isEliminated = false) (h3 : p.status ≠ "eliminated") :
    (elimUpdate roomId r k res p).currentRound = r ∧
      ((elimUpdate roomId r k res p).status = "qualified" ∨
        (elimUpdate roomId r k res p).status = "eliminated") := by
  unfold elimUpdate
  rw [if_pos ⟨h1, h2, h3⟩]
  split_ifs <;> simp

lemma elimUpdate_eliminated (roomId : String) (r k : ℕ) (res : List Result) (p : Participant)
    (h : p.status = "eliminated") : elimUpdate roomId r k res p = p := by
  unfold elimUpdate
  rw [if_neg (by simp [h])]

/-- Claim C2: with no new Results between the two calls, a second
`calculateEliminations` run for the same room and round finds — via the
idempotency guard — a participant already stamped `qualified`/`eliminated`
for this round, returns `alreadyProcessed := true`, and changes no
participant: the state after the second call is exactly the state after
the first. -/
theorem calculateEliminations_idempotent (s : GameState) (roomId : String)
    (roundNumber qualifyCount : ℕ)
    (hres : roundResults s roomId roundNumber ≠ [])
    (hactive : ∃ p ∈ s.participants, p.roomId = roomId ∧ p.isEliminated = false ∧
      p.status ≠ "eliminated") :
    calculateEliminations (calculateEliminations s roomId roundNumber qualifyCount).2
        roomId roundNumber qualifyCount =
      ({ success := true, alreadyProcessed := true },
        (calculateEliminations s roomId roundNumber qualifyCount).2) := by
  cases hg : ((s.participants.filter fun p => p.roomId == roomId).any fun p =>
      p.currentRound == roundNumber &&
        (p.status == "qualified" || p.status == "eliminated")) with
  | true =>
    have h1 := calculateEliminations_early s roomId roundNumber qualifyCount hg
    rw [h1]
    exact h1
  | false =>
    obtain ⟨p, hpmem, hproom, hpelim, hpstat⟩ := hactive
    have hstate := calculateEliminations_fresh s roomId roundNumber qualifyCount hg
      (sortResults_ne_nil hres)
    have hup := elimUpdate_active roomId roundNumber qualifyCount
      (sortResults (roundResults s roomId roundNumber)) p hproom hpelim hpstat
    have hroom2 : (elimUpdate roomId roundNumber qualifyCount
        (sortResults (roundResults s roomId roundNumber)) p).roomId = roomId := by
      rw [elimUpdate_roomId]
      exact hproom
    have hmem2 : elimUpdate roomId roundNumber qualifyCount
        (sortResults (roundResults s roomId roundNumber)) p ∈
        (calculateEliminations s roomId roundNumber qualifyCount).2.participants := by
      rw [hstate]
      exact List.mem_map.mpr ⟨p, hpmem, rfl⟩
    have hg2 : (((calculateEliminations s roomId roundNumber
        qualifyCount).2.participants.filter fun q => q.roomId == roomId).any fun q =>
        q.currentRound == roundNumber &&
          (q.status == "qualified" || q.status == "eliminated")) = true := by
      apply List.any_eq_true.mpr
      refine ⟨_, List.mem_filter.mpr ⟨hmem2, by simp [hroom2]⟩, ?_⟩
      simp only [Bool.and_eq_true, Bool.or_eq_true, beq_iff_eq]
      refine ⟨hup.1, ?_⟩
      rcases hup.2 with h | h
      · exact Or.inl h
      · exact Or.inr h
    exact calculateEliminations_early _ roomId roundNumber qualifyCount hg2

/-- Participants and state for the idempotence witness. -/
def c2pa : Participant :=
  { id := "a", roomId := "R", name := "a", status := "active", currentRound := 1
    isEliminated := false, isQualified := false, isWinnerEligible := false
    eliminatedInRound := none }

def c2res : Result :=
  { userId := "a", roomId := "R", round := 1, accuracy := 90, wpm := 30, netWpm := none
    finalScore := 30, submittedAt := 2 }

def c2state : GameState :=
  { room := { id := "R", status := "round1", roundStatus := "active", currentRound := 1 }
    participants := [c2pa], results := [c2res], config := some [(1, 1)] }

theorem calculateEliminations_idempotent_witness :
    calculateEliminations (calculateEliminations c2state "R" 1 1).2 "R" 1 1 =
      ({ success := true, alreadyProcessed := true },
        (calculateEliminations c2state "R" 1 1).2) :=
  calculateEliminations_idempotent c2state "R" 1 1 (by decide)
    ⟨c2pa, by decide, by decide, by decide, by decide⟩

/-! ### Elimination-preservation helpers (used for the monotonicity claim) -/

/-- Every participant that is `eliminated` in `s` is still `eliminated`
at the same index in `s'`. -/
def elimPreserved (s s' : GameState) : Prop :=
  ∀ (i : ℕ) (p p' : Participant),
    s.participants[i]? = some p → s'.participants[i]? = some p' →
    p.status = "eliminated" → p'.status = "eliminated"

lemma startRound_participants (s : GameState) (roomId : String) (r : ℕ) :
    (startRound s roomId r).2.participants = s.participants ∨
    (startRound s roomId r).2.participants =
      s.participants.map (startRoundUpdate roomId r) := by
  unfold startRound
  dsimp only
  split
  · exact Or.inl rfl
  · split
    · exact Or.inl rfl
    · exact Or.inr rfl

lemma calculateEliminations_participants (s : GameState) (roomId : String) (r k : ℕ) :
    (calculateEliminations s roomId r k).2.participants = s.participants ∨
    (calculateEliminations s roomId r k).2.participants =
      s.participants.map (elimUpdate roomId r k (sortResults (roundResults s roomId r))) := by
  unfold calculateEliminations
  dsimp only
  split
  · exact Or.inl rfl
  · split
    · exact Or.inl rfl
    · exact Or.inr rfl

lemma endRound_participants (s : GameState) (roomId : String) (r : ℕ) :
    (endRound s roomId r).2.participants = s.participants ∨
    ∃ k, (endRound s roomId r).2.participants =
      s.participants.map (endRoundUpdate roomId r
        (((sortResults (roundResults s roomId r)).take k).map (·.userId))) := by
  unfold endRound
  dsimp only
  split
  · exact Or.inl rfl
  · split
    · exact Or.inl rfl
    · rename_i k heq
      split
      · exact Or.inl rfl
      · split
        · exact Or.inl rfl
        · exact Or.inr ⟨k, rfl⟩

lemma autoEndRound_participants (s : GameState) (roomId : String) (r : ℕ) :
    (autoEndRound s roomId r).2.participants = s.participants ∨
    ∃ k, (autoEndRound s roomId r).2.participants =
      s.participants.map (autoEndUpdate roomId r (sortResults (roundResults s roomId r))
        (((sortResults (roundResults s roomId r)).take k).map (·.userId))) := by
  unfold autoEndRound
  dsimp only
  split
  · exact Or.inl rfl
  · split
    · exact Or.inl rfl
    · split
      · exact Or.inl rfl
      · split
        · exact Or.inl rfl
        · rename_i k heq
          split
          · exact Or.inl rfl
          · exact Or.inr ⟨k, rfl⟩

lemma startRoundUpdate_eliminated (roomId : String) (r : ℕ) (p : Participant)
    (h : p.status = "eliminated") : startRoundUpdate roomId r p = p := by
  unfold startRoundUpdate
  rw [if_neg (by simp [h])]

lemma endRoundUpdate_status (roomId : String) (r : ℕ) (qIds : List String) (p : Participant)
    (h : qIds.contains p.id = false) :
    endRoundUpdate roomId r qIds p = p ∨
      (endRoundUpdate roomId r qIds p).status = "eliminated" := by
  unfold endRoundUpdate
  by_cases h1 : p.roomId = roomId
  · rw [if_pos h1, if_neg (by rw [h]; exact Bool.false_ne_true)]
    exact Or.inr rfl
  · rw [if_neg h1]
    exact Or.inl rfl

lemma autoEndUpdate_no_result (roomId : String) (r : ℕ) (res : List Result)
    (qIds : List String) (p : Participant)
    (h : (res.any fun x => x.userId == p.id) = false) :
    autoEndUpdate roomId r res qIds p = p := by
  unfold autoEndUpdate
  rw [if_neg (by simp [h])]

lemma mem_roundResults {s : GameState} {roomId : String} {rn : ℕ} {r : Result}
    (h : r ∈ roundResults s roomId rn) : r ∈ s.results ∧ r.roomId = roomId ∧ r.round = rn := by
  have hm := List.mem_filter.mp h
  have h2 := hm.2
  simp only [Bool.and_eq_true, beq_iff_eq] at h2
  exact ⟨hm.1, h2.1, h2.2⟩

lemma contains_top_userIds {l : List Result} {k : ℕ} {uid : String}
    (h : ((((sortResults l).take k).map (·.userId)).contains uid) = true) :
    ∃ r ∈ l, r.userId = uid := by
  have hmem : uid ∈ ((sortResults l).take k).map (·.userId) := by simpa using h
  obtain ⟨r, hrt, hru⟩ := List.mem_map.mp hmem
  have hrs : r ∈ sortBy resultLe l := List.take_subset _ _ hrt
  exact ⟨r, (mem_sortBy resultLe).mp hrs, hru⟩

/-- Claim C7 (amended): admin.js `startRound` and `calculateEliminations`
never move an eliminated participant out of `eliminated`, in any state;
`endRound` and `autoEndRound` preserve elimination provided no Result for
the ended round belongs to an eliminated participant — without that
proviso an eliminated participant who submitted can be re-qualified (see
the counterexample trace). -/
theorem eliminated_stays_eliminated :
    (∀ (s : GameState) (roomId : String) (r : ℕ),
      elimPreserved s (startRound s roomId r).2) ∧
    (∀ (s : GameState) (roomId : String) (r k : ℕ),
      elimPreserved s (calculateEliminations s roomId r k).2) ∧
    (∀ (s : GameState) (roomId : String) (r : ℕ),
      (∀ res ∈ s.results, res.roomId = roomId → res.round = r →
        ∀ q ∈ s.participants, q.id = res.userId → q.status ≠ "eliminated") →
      elimPreserved s (endRound s roomId r).2) ∧
    (∀ (s : GameState) (roomId : String) (r : ℕ),
      (∀ res ∈ s.results, res.roomId = roomId → res.round = r →
        ∀ q ∈ s.participants, q.id = res.userId → q.status ≠ "eliminated") →
      elimPreserved s (autoEndRound s roomId r).2) := by
  refine ⟨?_, ?_, ?_, ?_⟩
  · intro s roomId r i p p' hp hp' hst
    rcases startRound_participants s roomId r with h | h
    · rw [h, hp] at hp'
      injection hp' with h'
      rw [← h']
      exact hst
    · rw [h, List.getElem?_map, hp] at hp'
      simp only [Option.map_some'] at hp'
      injection hp' with h'
      rw [← h', startRoundUpdate_eliminated roomId r p hst]
      exact hst
  · intro s roomId r k i p p' hp hp' hst
    rcases calculateEliminations_participants s roomId r k with h | h
    · rw [h, hp] at hp'
      injection hp' with h'
      rw [← h']
      exact hst
    · rw [h, List.getElem?_map, hp] at hp'
      simp only [Option.map_some'] at hp'
      injection hp' with h'
      rw [← h', elimUpdate_eliminated _ _ _ _ _ hst]
      exact hst
  · intro s roomId r hsafe i p p' hp hp' hst
    rcases endRound_participants s roomId r with h | ⟨k, h⟩
    · rw [h, hp] at hp'
      injection hp' with h'
      rw [← h']
      exact hst
    · rw [h, List.getElem?_map, hp] at hp'
      simp only [Option.map_some'] at hp'
      injection hp' with h'
      have hcont : ((((sortResults (roundResults s roomId r)).take k).map
          (·.userId)).contains p.id) = false := by
        cases hc : ((((sortResults (roundResults s roomId r)).take k).map
            (·.userId)).contains p.id) with
        | false => rfl
        | true =>
          exfalso
          obtain ⟨res, hres, hresuid⟩ := contains_top_userIds hc
          obtain ⟨hm, hroom, hround⟩ := mem_roundResults hres
          exact hsafe res hm hroom hround p (List.getElem?_mem hp) hresuid.symm hst
      rcases endRoundUpdate_status roomId r _ p hcont with h2 | h2
      · rw [← h', h2]
        exact hst
      · rw [← h']
        exact h2
  · intro s roomId r hsafe i p p' hp hp' hst
    rcases autoEndRound_participants s roomId r with h | ⟨k, h⟩
    · rw [h, hp] at hp'
      injection hp' with h'
      rw [← h']
      exact hst
    · rw [h, List.getElem?_map, hp] at hp'
      simp only [Option.map_some'] at hp'
      injection hp' with h'
      have hany : ((sortResults (roundResults s roomId r)).any
          fun x => x.userId == p.id) = false := by
        cases ha : ((sortResults (roundResults s roomId r)).any
            fun x => x.userId == p.id) with
        | false => rfl
        | true =>
          exfalso
          obtain ⟨res, hres, hb⟩ := List.any_eq_true.mp ha
          have huid : res.userId = p.id := by simpa using hb
          have hres' : res ∈ roundResults s roomId r := (mem_sortBy resultLe).mp hres
          obtain ⟨hm, hroom, hround⟩ := mem_roundResults hres'
          exact hsafe res hm hroom hround p (List.getElem?_mem hp) huid.symm hst
      rw [← h', autoEndUpdate_no_result roomId r _ _ p hany]
      exact hst

/-- An already-eliminated participant, for the preservation witness. -/
def c7elim : Participant :=
  { id := "e", roomId := "R", name := "e", status := "eliminated", currentRound := 1
    isEliminated := true, isQualified := false, isWinnerEligible := false
    eliminatedInRound := some 1 }

def c7active : Participant :=
  { id := "a", roomId := "R", name := "a", status := "active", currentRound := 1
    isEliminated := false, isQualified := false, isWinnerEligible := false
    eliminatedInRound := none }

def c7res : Result :=
  { userId := "a", roomId := "R", round := 1, accuracy := 80, wpm := 20, netWpm := none
    finalScore := 20, submittedAt := 4 }

def c7wstate : GameState :=
  { room := { id := "R", status := "round1", roundStatus := "active", currentRound := 1 }
    participants := [c7active, c7elim], results := [c7res], config := some [(1, 1)] }

theorem eliminated_stays_eliminated_witness :
    c7elim.status = "eliminated" ∧ c7elim.status = "eliminated" ∧
    c7elim.status = "eliminated" ∧ c7elim.status = "eliminated" :=
  ⟨eliminated_stays_eliminated.1 c7wstate "R" 1 1 c7elim c7elim rfl (by decide) rfl,
    eliminated_stays_eliminated.2.1 c7wstate "R" 1 1 1 c7elim c7elim rfl (by decide) rfl,
    eliminated_stays_eliminated.2.2.1 c7wstate "R" 1 (by decide) 1 c7elim c7elim rfl
      (by decide) rfl,
    eliminated_stays_eliminated.2.2.2 c7wstate "R" 1 (by decide) 1 c7elim c7elim rfl
      (by decide) rfl⟩

/-- Reference text for the requalification trace. -/
def refText : List Char := ['a', 'b']

def tpa : Participant :=
  { id := "a", roomId := "R", name := "a", status := "waiting", currentRound := 0
    isEliminated := false, isQualified := false, isWinnerEligible := false
    eliminatedInRound := none }

def tpc : Participant :=
  { id := "c", roomId := "R", name := "c", status := "waiting", currentRound := 0
    isEliminated := false, isQualified := false, isWinnerEligible := false
    eliminatedInRound := none }

/-- Fresh room before round 1, with two joined participants. -/
def traceS0 : GameState :=
  { room := { id := "R", status := "waiting", roundStatus := "", currentRound := 0 }
    participants := [tpa, tpc], results := [], config := some [(1, 1), (2, 1)] }

def traceS1 : GameState := (startRound traceS0 "R" 1).2

def traceS2 : GameState := (submitTypingResult traceS1 "a" "R" 1 refText refText 60 100).2

def traceS3 : GameState := (endRound traceS2 "R" 1).2

def traceS4 : GameState := (submitTypingResult traceS3 "c" "R" 2 refText refText 60 200).2

/-- Claim C7 (counterexample): a reachable trace — start round 1, one
submission, end round 1 (eliminating `c`), then `c` submits for round 2
(`submitTypingResult` has no status guard) — after which a successful
`autoEndRound` for round 2 moves the eliminated participant `c` back to
`qualified`. -/
theorem autoEndRound_requalifies_eliminated :
    ((traceS4.participants.map fun p => (p.id, p.status)) =
      [("a", "qualified"), ("c", "eliminated")]) ∧
    (autoEndRound traceS4 "R" 2).1.success = true ∧
    (autoEndRound traceS4 "R" 2).1.alreadyProcessed = false ∧
    (((autoEndRound traceS4 "R" 2).2.participants.map fun p => (p.id, p.status)) =
      [("a", "qualified"), ("c", "qualified")]) := by
  refine ⟨?_, ?_, ?_, ?_⟩ <;> decide

end Typing
